import Mathlib

set_option autoImplicit false
set_option linter.unusedVariables false

/-!
Shallow embedding of the LN-backend case-lifecycle core: the SLA service
(src/services/slaService.js), the case status / checklist controllers
(src/controllers/employeeController.js), the document version store
(src/models/DocumentVersion.js, src/controllers/documentVersionController.js)
and the workflow-template model (src/models/WorkflowTemplate.js,
src/controllers/internalNoteController.js).

Timestamps are modelled as integer milliseconds (JS Date arithmetic), object
ids as naturals, and the Mongo collections as Lean lists.  Each controller is
a pure function from the relevant collections and request data to an
Except-value mirroring the HTTP outcome.
-/

namespace LN

/-- The factor 1000 * 60 * 60 used by the source to convert ms to hours. -/
def msPerHour : Int := 3600000

/-- The slaStatus enumeration of src/models/Case.js. -/
inductive SLAStatus
  | not_set
  | on_time
  | at_risk
  | breached
deriving DecidableEq, Repr

/-- The CASE_STATUS enumeration of src/utils (constants). -/
inductive CaseStatus
  | new
  | in_progress
  | completed
  | cancelled
deriving DecidableEq, Repr

/-- From src/services/slaService.js, checkSLAStatus (lines 37-53): not_set
when the deadline is null, breached when now > deadline, at_risk when the
remaining time is at most 24 hours, on_time otherwise.  The source computes
hoursRemaining = (deadline - now) / 3600000 over reals and compares with 24;
over a positive divisor this is exactly deadline - now <= 24 * msPerHour. -/
def checkSLAStatus (now : Int) (slaDeadline : Option Int) : SLAStatus :=
  match slaDeadline with
  | none => SLAStatus.not_set
  | some deadline =>
    if now > deadline then SLAStatus.breached
    else if deadline - now ≤ 24 * msPerHour then SLAStatus.at_risk
    else SLAStatus.on_time

/-- C3: the SLA classification function is pure and total in (now, deadline):
not_set on a null deadline, breached strictly after the deadline, at_risk when
the deadline has not passed and at most 24h remain, on_time otherwise; in
particular classify(t, null) = not_set, classify(d+1s, d) = breached,
classify(d-1h, d) = at_risk and classify(d-48h, d) = on_time. -/
theorem C3_classify_pure_total :
    (∀ t : Int, checkSLAStatus t none = SLAStatus.not_set)
    ∧ (∀ t d : Int, d < t → checkSLAStatus t (some d) = SLAStatus.breached)
    ∧ (∀ t d : Int, t ≤ d → d - t ≤ 24 * msPerHour →
        checkSLAStatus t (some d) = SLAStatus.at_risk)
    ∧ (∀ t d : Int, t ≤ d → 24 * msPerHour < d - t →
        checkSLAStatus t (some d) = SLAStatus.on_time)
    ∧ (∀ d : Int, checkSLAStatus (d + 1000) (some d) = SLAStatus.breached)
    ∧ (∀ d : Int, checkSLAStatus (d - msPerHour) (some d) = SLAStatus.at_risk)
    ∧ (∀ d : Int, checkSLAStatus (d - 48 * msPerHour) (some d) = SLAStatus.on_time) := by
  refine ⟨fun t => rfl, ?_, ?_, ?_, ?_, ?_, ?_⟩
  · intro t d h
    simp only [checkSLAStatus, msPerHour]
    rw [if_pos (show t > d by omega)]
  · intro t d h1 h2
    simp only [msPerHour] at h2
    simp only [checkSLAStatus, msPerHour]
    rw [if_neg (show ¬ t > d by omega), if_pos h2]
  · intro t d h1 h2
    simp only [msPerHour] at h2
    simp only [checkSLAStatus, msPerHour]
    rw [if_neg (show ¬ t > d by omega), if_neg (show ¬ d - t ≤ 24 * 3600000 by omega)]
  · intro d
    simp only [checkSLAStatus, msPerHour]
    rw [if_pos (show d + 1000 > d by omega)]
  · intro d
    simp only [checkSLAStatus, msPerHour]
    rw [if_neg (show ¬ d - 3600000 > d by omega),
      if_pos (show d - (d - 3600000) ≤ 24 * 3600000 by omega)]
  · intro d
    simp only [checkSLAStatus, msPerHour]
    rw [if_neg (show ¬ d - 48 * 3600000 > d by omega),
      if_neg (show ¬ d - (d - 48 * 3600000) ≤ 24 * 3600000 by omega)]

/-- Witness for C3 at concrete instants. -/
theorem C3_classify_pure_total_witness :
    checkSLAStatus 10 none = SLAStatus.not_set
    ∧ checkSLAStatus 1000 (some 0) = SLAStatus.breached
    ∧ checkSLAStatus 0 (some 3600000) = SLAStatus.at_risk
    ∧ checkSLAStatus 0 (some 360000000) = SLAStatus.on_time :=
  ⟨C3_classify_pure_total.1 10,
   C3_classify_pure_total.2.1 1000 0 (by decide),
   C3_classify_pure_total.2.2.1 0 3600000 (by decide) (by decide),
   C3_classify_pure_total.2.2.2.1 0 360000000 (by decide) (by decide)⟩

/-- One checklistProgress entry of the Case schema (src/models/Case.js,
lines 86-106): keyed by (stepId, itemId). -/
structure ChecklistEntry where
  stepId : Nat
  itemId : Nat
  isCompleted : Bool
  completedAt : Option Int
  completedBy : Option Nat
deriving DecidableEq, Repr

/-- The Case aggregate (src/models/Case.js), restricted to the fields the
case-lifecycle core reads or writes.  id models the Mongo _id. -/
structure Case where
  id : Nat
  endUserId : Nat
  serviceId : Nat
  employeeId : Option Nat
  status : CaseStatus
  currentStep : Int
  completedAt : Option Int
  checklistProgress : List ChecklistEntry
  slaDeadline : Option Int
  slaStatus : SLAStatus
  reopenCount : Nat
  lastActivityAt : Int
deriving DecidableEq, Repr

/-- The eventType enumeration of src/models/ActivityTimeline.js. -/
inductive EventType
  | case_created
  | case_assigned
  | status_changed
  | document_uploaded
  | document_verified
  | document_rejected
  | payment_received
  | note_added
  | internal_note_added
  | checklist_updated
  | reminder_set
  | sla_warning
  | sla_breach
  | case_completed
  | case_reopened
  | communication_sent
  | other
deriving DecidableEq, Repr

/-- The performedBy sub-document of an ActivityTimeline event. -/
structure PerformedBy where
  userId : Option Nat
  name : String
  role : String
deriving DecidableEq, Repr

/-- An ActivityTimeline row (src/models/ActivityTimeline.js), restricted to
the fields the claims are about. -/
structure TimelineEvent where
  caseId : Nat
  eventType : EventType
  title : String
  isVisibleToUser : Bool
  performedBy : PerformedBy
deriving DecidableEq, Repr

/-- A Notification row (src/models/Notification.js), restricted to the
fields the claims are about. -/
structure Notification where
  recipientId : Nat
  title : String
  relatedCaseId : Nat
deriving DecidableEq, Repr

/-- The authenticated request user (req.user). -/
structure User where
  id : Nat
  role : String
  name : String
deriving DecidableEq, Repr

/-- A Service row, providing the documentsRequired configuration. -/
structure Service where
  id : Nat
  name : String
  documentsRequired : List String
deriving DecidableEq, Repr

/-- Case.findById over the cases collection. -/
def findCase (cases : List Case) (i : Nat) : Option Case :=
  cases.find? (fun c => c.id == i)

/-- Service.findById over the services collection. -/
def findService (services : List Service) (i : Nat) : Option Service :=
  services.find? (fun s => s.id == i)

/-! ## SLA sweep (src/services/slaService.js, updateAllSLAStatuses) -/

/-- The Case.find filter of the sweep (lines 61-64): status not in
[completed, closed, cancelled] (the stored enum never holds closed) and a
non-null slaDeadline. -/
def sweepSelects (c : Case) : Bool :=
  decide (c.status ≠ CaseStatus.completed ∧ c.status ≠ CaseStatus.cancelled
    ∧ c.slaDeadline ≠ none)

/-- Event type chosen by the sweep for a changed classification. -/
def sweepEventType (s : SLAStatus) : EventType :=
  if s = SLAStatus.at_risk then EventType.sla_warning else EventType.sla_breach

/-- An entry of the alerts array returned by updateAllSLAStatuses. -/
structure SLAAlert where
  caseId : Nat
  status : SLAStatus
  deadline : Option Int
deriving DecidableEq, Repr

/-- Result of the sweep body for one case.  The source also attempts one
notification insert when an employee is assigned and a template exists, but
that insert can never succeed (see sweepCase); thrown records that the
attempt was reached and raised. -/
structure SweepCaseResult where
  caseItem : Case
  updated : Nat
  alerts : List SLAAlert
  events : List TimelineEvent
  thrown : Bool
deriving DecidableEq, Repr

/-- The loop body of updateAllSLAStatuses (lines 69-137) for one case:
recompute the classification; when it differs, persist it (save) and count
the write; when the new value is at_risk or breached, record an alert and
append an internal-only system timeline event (ActivityTimeline.createEvent
swallows its own failures); then, when an employee is assigned and
NotificationTemplate.getByEvent finds a template, call Notification.create
with type IN_APP - which the Notification schema enum
Object.values(NOTIFICATION_TYPES) = [email, sms, in_app] rejects, so the
call always throws, after the save and the event append.  thrown records
that this deterministic throw was reached. -/
def sweepCase (now : Int) (hasTemplate : EventType → Bool) (c : Case) :
    SweepCaseResult :=
  if sweepSelects c then
    let oldStatus := c.slaStatus
    let newStatus := checkSLAStatus now c.slaDeadline
    if oldStatus = newStatus then
      { caseItem := c, updated := 0, alerts := [], events := [], thrown := false }
    else
      let c2 := { c with slaStatus := newStatus }
      if newStatus = SLAStatus.at_risk ∨ newStatus = SLAStatus.breached then
        let ev : TimelineEvent :=
          { caseId := c.id
            eventType := sweepEventType newStatus
            title := if newStatus = SLAStatus.at_risk then "SLA Warning" else "SLA Breached"
            isVisibleToUser := false
            performedBy := { userId := none, name := "System", role := "system" } }
        let reachesCreate :=
          match c.employeeId with
          | some _ => hasTemplate (sweepEventType newStatus)
          | none => false
        { caseItem := c2, updated := 1
          alerts := [{ caseId := c.id, status := newStatus, deadline := c.slaDeadline }]
          events := [ev], thrown := reachesCreate }
      else
        { caseItem := c2, updated := 1, alerts := [], events := [], thrown := false }
  else
    { caseItem := c, updated := 0, alerts := [], events := [], thrown := false }

/-- State of the for-loop of updateAllSLAStatuses: the whole loop sits in
one try/catch, so the first Notification.create rejection ends it - the
saves and events of the processed prefix persist, later cases stay
untouched. -/
structure SweepLoopState where
  cases : List Case
  updatedCount : Nat
  alerts : List SLAAlert
  events : List TimelineEvent
  thrown : Bool
deriving DecidableEq, Repr

/-- The for-loop of updateAllSLAStatuses (lines 69-138), processing cases
in order until the first notification attempt throws. -/
def sweepLoop (now : Int) (hasTemplate : EventType → Bool) :
    List Case → SweepLoopState
  | [] => { cases := [], updatedCount := 0, alerts := [], events := [], thrown := false }
  | c :: cs =>
    let r := sweepCase now hasTemplate c
    if r.thrown then
      { cases := r.caseItem :: cs, updatedCount := r.updated, alerts := r.alerts
        events := r.events, thrown := true }
    else
      let rest := sweepLoop now hasTemplate cs
      { cases := r.caseItem :: rest.cases
        updatedCount := r.updated + rest.updatedCount
        alerts := r.alerts ++ rest.alerts
        events := r.events ++ rest.events
        thrown := rest.thrown }

/-- Result of a whole sweep run: the persisted case collection and appended
events, the notifications actually created (none can ever be), and the
returned counters - zeroed by the catch block when the run aborted. -/
structure SweepResult where
  cases : List Case
  updatedCount : Nat
  alerts : List SLAAlert
  events : List TimelineEvent
  notifications : List Notification
  aborted : Bool
deriving DecidableEq, Repr

/-- updateAllSLAStatuses (lines 59-146): run the loop; on the first
Notification.create rejection the single catch block (lines 142-145) logs
and returns updatedCount 0 with an empty alerts array, leaving the prefix
saves and events in place and the remaining cases unprocessed. -/
def updateAllSLAStatuses (now : Int) (hasTemplate : EventType → Bool)
    (cases : List Case) : SweepResult :=
  let run := sweepLoop now hasTemplate cases
  if run.thrown then
    { cases := run.cases, updatedCount := 0, alerts := [], events := run.events
      notifications := [], aborted := true }
  else
    { cases := run.cases, updatedCount := run.updatedCount, alerts := run.alerts
      events := run.events, notifications := [], aborted := false }

/-- An in-progress case past its deadline with an assigned employee. -/
def alphaCase : Case :=
  { id := 21, endUserId := 2, serviceId := 3, employeeId := some 7
    status := CaseStatus.in_progress, currentStep := 0, completedAt := none
    checklistProgress := [], slaDeadline := some 0, slaStatus := SLAStatus.on_time
    reopenCount := 0, lastActivityAt := 0 }

/-- A second such case, assigned to a different employee. -/
def betaCase : Case := { alphaCase with id := 22, employeeId := some 8 }

/-- C4: the claimed idempotence fails on the code, evaluated at the failing
input: with two transitioning cases (assigned employees, template
available), the first sweep saves alphaCase and appends its sla_breach
event, then the IN_APP notification insert is rejected by the Notification
type enum and the loop-wide catch aborts before betaCase; the immediate
second sweep at the same instant saves betaCase and appends one more event,
where the claim requires zero additional writes and events. -/
theorem C4_sweep_abort_breaks_idempotence :
    (updateAllSLAStatuses 100 (fun _ => true) [alphaCase, betaCase]).aborted = true
    ∧ (updateAllSLAStatuses 100 (fun _ => true) [alphaCase, betaCase]).events.length = 1
    ∧ (updateAllSLAStatuses 100 (fun _ => true)
        (updateAllSLAStatuses 100 (fun _ => true) [alphaCase, betaCase]).cases).events.length
      = 1
    ∧ (updateAllSLAStatuses 100 (fun _ => true)
        (updateAllSLAStatuses 100 (fun _ => true) [alphaCase, betaCase]).cases).cases ≠
      (updateAllSLAStatuses 100 (fun _ => true) [alphaCase, betaCase]).cases := by
  decide

/-- C5: the sweep can never dispatch an alert notification - every reached
Notification.create call is rejected by the type enum, and the call is only
reached for cases with an assigned employee; at the failing input the run
aborts right after appending the single internal-only sla_breach event and
creates no notification, where the spec expects one dispatched alert per
transition for assigned cases. -/
theorem C5_sweep_notifications_never_created :
    (∀ (now : Int) (h : EventType → Bool) (cs : List Case),
      (updateAllSLAStatuses now h cs).notifications = [])
    ∧ (∀ (now : Int) (h : EventType → Bool) (c : Case),
      (sweepCase now h c).thrown = true → c.employeeId ≠ none)
    ∧ (updateAllSLAStatuses 100 (fun _ => true) [alphaCase]).aborted = true
    ∧ (updateAllSLAStatuses 100 (fun _ => true) [alphaCase]).notifications = []
    ∧ (updateAllSLAStatuses 100 (fun _ => true) [alphaCase]).events.map
        (fun e => (e.eventType, e.isVisibleToUser)) = [(EventType.sla_breach, false)] := by
  refine ⟨?_, ?_, by decide, by decide, by decide⟩
  · intro now h cs
    simp only [updateAllSLAStatuses]
    split <;> rfl
  · intro now h c hth
    rcases hemp : c.employeeId with _ | emp
    · exfalso
      by_cases hs : sweepSelects c
      · by_cases heq : c.slaStatus = checkSLAStatus now c.slaDeadline
        · simp [sweepCase, hs, heq] at hth
        · by_cases hb : checkSLAStatus now c.slaDeadline = SLAStatus.at_risk
            ∨ checkSLAStatus now c.slaDeadline = SLAStatus.breached
          · simp [sweepCase, hs, heq, hb, hemp] at hth
          · simp [sweepCase, hs, heq, hb] at hth
      · simp [sweepCase, hs] at hth
    · simp [hemp]

/-- Witness for C5: the throw is reached for alphaCase, which indeed has an
assigned employee. -/
theorem C5_sweep_notifications_never_created_witness :
    alphaCase.employeeId ≠ none :=
  C5_sweep_notifications_never_created.2.1 100 (fun _ => true) alphaCase (by decide)

/-! ## Case status updates (src/controllers/employeeController.js, lines 122-176) -/

/-- The HTTP error outcomes of the controllers: 404, 403, 400, and a 500
for requests the source code would crash on (next(err)). -/
inductive ApiError
  | notFound (msg : String)
  | forbidden (msg : String)
  | badRequest (msg : String)
  | serverError
deriving DecidableEq, Repr

/-- Result of a successful case-mutating call: the updated collection, the
saved case, the notifications created and the timeline events appended. -/
structure CaseUpdateResult where
  cases : List Case
  caseItem : Case
  notifications : List Notification
  events : List TimelineEvent
deriving DecidableEq, Repr

/-- The statusText selection of updateCaseStatus (lines 155-159) for a
request carrying the given status. -/
def statusTextOf (s : CaseStatus) : String :=
  if s = CaseStatus.completed then "completed"
  else if s = CaseStatus.in_progress then "updated"
  else "started"

/-- The field writes of updateCaseStatus (lines 143-149) on the found case
for a request carrying a status: apply the requested status and currentStep
and stamp completedAt when the requested status is completed. -/
def updatedStatusCase (c : Case) (s : CaseStatus) (step : Option Int) (now : Int) : Case :=
  { c with
    status := s
    currentStep := step.getD c.currentStep
    completedAt := if s = CaseStatus.completed then some now else c.completedAt }

/-- updateCaseStatus (lines 122-176): find the case (404 when absent),
require the requester to be the assigned employee (403 otherwise; a null
employeeId makes employeeId.toString() throw, surfaced through next(err)),
apply status (kept when the request carries a falsy one) and currentStep,
stamp completedAt when the requested status is completed, save, and create
one in-app notification for the end user.  The handler validates no
transition, appends no timeline event and does not touch lastActivityAt. -/
def updateCaseStatus (cases : List Case) (services : List Service) (user : User)
    (caseId : Nat) (reqStatus : Option CaseStatus) (reqCurrentStep : Option Int)
    (now : Int) : Except ApiError CaseUpdateResult :=
  match findCase cases caseId with
  | none => Except.error (ApiError.notFound "Case not found")
  | some caseItem =>
    match caseItem.employeeId with
    | none => Except.error ApiError.serverError
    | some emp =>
      if emp ≠ user.id then
        Except.error (ApiError.forbidden "Not authorized to update this case")
      else
        let c2 : Case :=
          { caseItem with
            status := reqStatus.getD caseItem.status
            currentStep := reqCurrentStep.getD caseItem.currentStep
            completedAt :=
              if reqStatus = some CaseStatus.completed then some now
              else caseItem.completedAt }
        let statusText :=
          if reqStatus = some CaseStatus.completed then "completed"
          else if reqStatus = some CaseStatus.in_progress then "updated"
          else "started"
        Except.ok
          { cases := cases.map (fun x => if x.id == caseId then c2 else x)
            caseItem := c2
            notifications :=
              [{ recipientId := caseItem.endUserId
                 title := "Case " ++ statusText
                 relatedCaseId := caseItem.id }]
            events := [] }

/-- Full characterization of a successful updateCaseStatus call carrying a
status: any requested status is applied unconditionally, one notification is
created, and no timeline event is appended. -/
theorem updateCaseStatus_ok (cases : List Case) (services : List Service)
    (user : User) (caseId : Nat) (c : Case) (s : CaseStatus) (step : Option Int)
    (now : Int) (hfind : findCase cases caseId = some c)
    (hemp : c.employeeId = some user.id) :
    updateCaseStatus cases services user caseId (some s) step now =
      Except.ok
        { cases := cases.map (fun x => if x.id == caseId then updatedStatusCase c s step now else x)
          caseItem := updatedStatusCase c s step now
          notifications :=
            [{ recipientId := c.endUserId
               title := "Case " ++ statusTextOf s
               relatedCaseId := c.id }]
          events := [] } := by
  simp [updateCaseStatus, hfind, hemp, updatedStatusCase, statusTextOf]

/-- A cancelled case assigned to employee 5. -/
def cancelledCase : Case :=
  { id := 10, endUserId := 2, serviceId := 3, employeeId := some 5
    status := CaseStatus.cancelled, currentStep := 1, completedAt := none
    checklistProgress := [], slaDeadline := none, slaStatus := SLAStatus.not_set
    reopenCount := 0, lastActivityAt := 50 }

/-- A fresh case assigned to employee 5. -/
def newCase : Case :=
  { id := 11, endUserId := 2, serviceId := 3, employeeId := some 5
    status := CaseStatus.new, currentStep := 0, completedAt := none
    checklistProgress := [], slaDeadline := none, slaStatus := SLAStatus.not_set
    reopenCount := 0, lastActivityAt := 50 }

/-- The assigned employee of the sample cases. -/
def employeeUser : User := { id := 5, role := "employee", name := "Emp" }

/-- Counterexample to C1: requesting the disallowed transition
cancelled -> in_progress succeeds (no Conflict error), the status is coerced
to in_progress, and no timeline event is appended. -/
theorem C1_invalid_transition_counterexample :
    (updateCaseStatus [cancelledCase] [] employeeUser 10
        (some CaseStatus.in_progress) none 99).toOption.map
      (fun r => (r.caseItem.status, r.events.length)) =
      some (CaseStatus.in_progress, 0) := by decide

/-- C1 (amended): updateCaseStatus performs no transition validation: for an
authorized request carrying any status, the requested status (for example
in_progress on a cancelled case) is applied unconditionally and the call
succeeds; no timeline event is appended and no Conflict error is reported;
fields other than status, currentStep and completedAt are unchanged. -/
theorem C1_no_transition_validation (cases : List Case) (services : List Service)
    (user : User) (caseId : Nat) (c : Case) (s : CaseStatus) (step : Option Int)
    (now : Int) (hfind : findCase cases caseId = some c)
    (hemp : c.employeeId = some user.id) :
    updateCaseStatus cases services user caseId (some s) step now =
      Except.ok
        { cases := cases.map (fun x => if x.id == caseId then updatedStatusCase c s step now else x)
          caseItem := updatedStatusCase c s step now
          notifications :=
            [{ recipientId := c.endUserId
               title := "Case " ++ statusTextOf s
               relatedCaseId := c.id }]
          events := [] }
    ∧ (updatedStatusCase c s step now).status = s
    ∧ (updatedStatusCase c s step now).slaStatus = c.slaStatus
    ∧ (updatedStatusCase c s step now).slaDeadline = c.slaDeadline
    ∧ (updatedStatusCase c s step now).checklistProgress = c.checklistProgress
    ∧ (updatedStatusCase c s step now).lastActivityAt = c.lastActivityAt :=
  ⟨updateCaseStatus_ok cases services user caseId c s step now hfind hemp,
   rfl, rfl, rfl, rfl, rfl⟩

/-- Witness for C1 at the cancelled -> in_progress request. -/
theorem C1_no_transition_validation_witness :
    updateCaseStatus [cancelledCase] [] employeeUser 10 (some CaseStatus.in_progress) none 99 =
      Except.ok
        { cases := [cancelledCase].map (fun x => if x.id == 10 then
            updatedStatusCase cancelledCase CaseStatus.in_progress none 99 else x)
          caseItem := updatedStatusCase cancelledCase CaseStatus.in_progress none 99
          notifications :=
            [{ recipientId := cancelledCase.endUserId
               title := "Case " ++ statusTextOf CaseStatus.in_progress
               relatedCaseId := cancelledCase.id }]
          events := [] } :=
  (C1_no_transition_validation [cancelledCase] [] employeeUser 10 cancelledCase
    CaseStatus.in_progress none 99 (by decide) (by decide)).1

/-- The transition set the spec declares valid (section 4.1, with the
section 8 remark that new -> completed directly is allowed); used only to
phrase the scope of the amended C6 claim. -/
def specAllowsTransition (oldS newS : CaseStatus) : Bool :=
  match oldS, newS with
  | CaseStatus.new, CaseStatus.in_progress => true
  | CaseStatus.new, CaseStatus.completed => true
  | CaseStatus.in_progress, CaseStatus.completed => true
  | CaseStatus.in_progress, CaseStatus.cancelled => true
  | CaseStatus.completed, CaseStatus.in_progress => true
  | _, _ => false

/-- Counterexample to C6: a valid transition (new -> in_progress) by the
assigned employee succeeds but appends zero status_changed timeline events
and leaves lastActivityAt untouched (50, although now = 99). -/
theorem C6_valid_transition_counterexample :
    (updateCaseStatus [newCase] [] employeeUser 11
        (some CaseStatus.in_progress) none 99).toOption.map
      (fun r => (r.caseItem.status, r.events.length, r.caseItem.lastActivityAt)) =
      some (CaseStatus.in_progress, 0, 50) := by decide

/-- C6 (amended): for every valid status transition requested by the
authorized actor, updateCaseStatus moves the case to the requested status,
sets completedAt when the new status is completed, and creates one end-user
notification - but it appends no status_changed timeline event and does not
refresh lastActivityAt. -/
theorem C6_valid_transition_behaviour (cases : List Case) (services : List Service)
    (user : User) (caseId : Nat) (c : Case) (s : CaseStatus) (step : Option Int)
    (now : Int) (hfind : findCase cases caseId = some c)
    (hemp : c.employeeId = some user.id)
    (hvalid : specAllowsTransition c.status s = true) :
    updateCaseStatus cases services user caseId (some s) step now =
      Except.ok
        { cases := cases.map (fun x => if x.id == caseId then updatedStatusCase c s step now else x)
          caseItem := updatedStatusCase c s step now
          notifications :=
            [{ recipientId := c.endUserId
               title := "Case " ++ statusTextOf s
               relatedCaseId := c.id }]
          events := [] }
    ∧ (updatedStatusCase c s step now).status = s
    ∧ (updatedStatusCase c s step now).completedAt =
        (if s = CaseStatus.completed then some now else c.completedAt)
    ∧ (updatedStatusCase c s step now).lastActivityAt = c.lastActivityAt :=
  ⟨updateCaseStatus_ok cases services user caseId c s step now hfind hemp,
   rfl, rfl, rfl⟩

/-- Witness for C6 at the valid new -> completed request. -/
theorem C6_valid_transition_behaviour_witness :
    updateCaseStatus [newCase] [] employeeUser 11 (some CaseStatus.completed) none 99 =
      Except.ok
        { cases := [newCase].map (fun x => if x.id == 11 then
            updatedStatusCase newCase CaseStatus.completed none 99 else x)
          caseItem := updatedStatusCase newCase CaseStatus.completed none 99
          notifications :=
            [{ recipientId := newCase.endUserId
               title := "Case " ++ statusTextOf CaseStatus.completed
               relatedCaseId := newCase.id }]
          events := [] } :=
  (C6_valid_transition_behaviour [newCase] [] employeeUser 11 newCase
    CaseStatus.completed none 99 (by decide) (by decide) (by decide)).1

/-! ## Checklist progress (src/controllers/employeeController.js, lines 415-473) -/

/-- The findIndex / update-or-push logic of updateChecklistProgress (lines
441-459): the first entry matching (stepId, itemId) is updated in place -
completedAt/completedBy stamped when isCompleted and cleared to null
otherwise - and a new entry is pushed at the end when none matches. -/
def upsertChecklist (stepId itemId : Nat) (isCompleted : Bool) (uid : Nat) (now : Int) :
    List ChecklistEntry → List ChecklistEntry
  | [] =>
    [{ stepId := stepId, itemId := itemId, isCompleted := isCompleted
       completedAt := if isCompleted then some now else none
       completedBy := if isCompleted then some uid else none }]
  | p :: ps =>
    if p.stepId == stepId && p.itemId == itemId then
      { p with
        isCompleted := isCompleted
        completedAt := if isCompleted then some now else none
        completedBy := if isCompleted then some uid else none } :: ps
    else
      p :: upsertChecklist stepId itemId isCompleted uid now ps

/-- The case state written by a successful updateChecklistProgress call: the
upserted checklist plus the updateActivity() refresh of lastActivityAt. -/
def updatedChecklistCase (c : Case) (stepId itemId : Nat) (isCompleted : Bool)
    (uid : Nat) (now : Int) : Case :=
  { c with
    checklistProgress := upsertChecklist stepId itemId isCompleted uid now c.checklistProgress
    lastActivityAt := now }

/-- updateChecklistProgress (lines 415-473): find the case (404 when
absent), require the requester to be the assigned employee (403 otherwise; a
null employeeId throws), upsert the (stepId, itemId) entry, save, refresh
lastActivityAt via updateActivity().  No timeline event is appended and no
notification is created. -/
def updateChecklistProgress (cases : List Case) (user : User) (caseId : Nat)
    (stepId itemId : Nat) (isCompleted : Bool) (now : Int) :
    Except ApiError CaseUpdateResult :=
  match findCase cases caseId with
  | none => Except.error (ApiError.notFound "Case not found")
  | some caseItem =>
    match caseItem.employeeId with
    | none => Except.error ApiError.serverError
    | some emp =>
      if emp ≠ user.id then
        Except.error (ApiError.forbidden "Not authorized to update this case")
      else
        Except.ok
          { cases := cases.map (fun x => if x.id == caseId then
              updatedChecklistCase caseItem stepId itemId isCompleted user.id now else x)
            caseItem := updatedChecklistCase caseItem stepId itemId isCompleted user.id now
            notifications := []
            events := [] }

/-- The matching predicate on checklist entries. -/
def checklistKey (stepId itemId : Nat) : ChecklistEntry → Bool :=
  fun p => p.stepId == stepId && p.itemId == itemId

/-- After an upsert, the first entry for the key holds exactly the requested
completion state: stamped when complete, cleared when not. -/
theorem upsertChecklist_find (s i : Nat) (b : Bool) (u : Nat) (t : Int)
    (l : List ChecklistEntry) :
    (upsertChecklist s i b u t l).find? (checklistKey s i) =
      some { stepId := s, itemId := i, isCompleted := b
             completedAt := if b then some t else none
             completedBy := if b then some u else none } := by
  induction l with
  | nil => simp [upsertChecklist, checklistKey]
  | cons p ps ih =>
    by_cases hm : (p.stepId == s && p.itemId == i) = true
    · have hm2 : p.stepId = s ∧ p.itemId = i := by
        simpa [Bool.and_eq_true, beq_iff_eq] using hm
      simp only [upsertChecklist, if_pos hm]
      rw [List.find?_cons_of_pos _ (by simp [checklistKey, hm2.1, hm2.2])]
      simp [hm2.1, hm2.2]
    · simp only [upsertChecklist, if_neg hm]
      rw [List.find?_cons_of_neg _ (by simp [checklistKey]; simpa using hm)]
      exact ih

/-- Re-running the same upsert leaves the checklist unchanged. -/
theorem upsertChecklist_idem (s i : Nat) (b : Bool) (u : Nat) (t : Int)
    (l : List ChecklistEntry) :
    upsertChecklist s i b u t (upsertChecklist s i b u t l) =
      upsertChecklist s i b u t l := by
  induction l with
  | nil => simp [upsertChecklist]
  | cons p ps ih =>
    by_cases hm : (p.stepId == s && p.itemId == i) = true
    · simp [upsertChecklist, hm]
    · simp [upsertChecklist, hm, ih]

/-- An upsert on a checklist holding at most one entry for the key leaves
exactly one entry for the key. -/
theorem upsertChecklist_count (s i : Nat) (b : Bool) (u : Nat) (t : Int)
    (l : List ChecklistEntry)
    (hone : (l.filter (checklistKey s i)).length ≤ 1) :
    ((upsertChecklist s i b u t l).filter (checklistKey s i)).length = 1 := by
  induction l with
  | nil => simp [upsertChecklist, checklistKey]
  | cons p ps ih =>
    by_cases hm : (p.stepId == s && p.itemId == i) = true
    · have hm2 : p.stepId = s ∧ p.itemId = i := by
        simpa [Bool.and_eq_true, beq_iff_eq] using hm
      have hz : (ps.filter (checklistKey s i)).length = 0 := by
        rw [List.filter_cons] at hone
        simp only [checklistKey, hm, if_pos] at hone
        simp only [List.length_cons] at hone
        omega
      simp only [upsertChecklist, if_pos hm, List.filter_cons]
      simp [checklistKey, hm2.1, hm2.2, hz]
    · have hone2 : (ps.filter (checklistKey s i)).length ≤ 1 := by
        rw [List.filter_cons] at hone
        simp only [checklistKey] at hone ⊢
        simp only [hm, if_neg] at hone
        simpa using hone
      simp only [upsertChecklist, if_neg hm, List.filter_cons]
      simp only [checklistKey] at ih ⊢
      simp [hm, ih hone2]

/-- Full characterization of a successful updateChecklistProgress call. -/
theorem updateChecklistProgress_ok (cases : List Case) (user : User)
    (caseId stepId itemId : Nat) (b : Bool) (now : Int) (c : Case)
    (hfind : findCase cases caseId = some c) (hemp : c.employeeId = some user.id) :
    updateChecklistProgress cases user caseId stepId itemId b now =
      Except.ok
        { cases := cases.map (fun x => if x.id == caseId then
            updatedChecklistCase c stepId itemId b user.id now else x)
          caseItem := updatedChecklistCase c stepId itemId b user.id now
          notifications := []
          events := [] } := by
  simp [updateChecklistProgress, hfind, hemp]

/-- Counterexample to C7: a successful checklist update appends zero
timeline events, although the claim requires an internal-only checklist
event on every call. -/
theorem C7_checklist_event_counterexample :
    (updateChecklistProgress [newCase] employeeUser 11 1 2 true 99).toOption.map
      (fun r => r.events.length) = some 0 := by decide

/-- C7 (amended): updateChecklistProgress upserts the entry keyed by
(stepId, itemId), stamping completedAt/completedBy exactly when
isCompleted = true and clearing both to null otherwise, and refreshes
lastActivityAt; marking the same item twice leaves the same final state with
a single entry for the key - but no timeline event is appended by any
call. -/
theorem C7_checklist_upsert_behaviour :
    (∀ (cases : List Case) (user : User) (caseId stepId itemId : Nat) (b : Bool)
        (now : Int) (c : Case),
      findCase cases caseId = some c → c.employeeId = some user.id →
      updateChecklistProgress cases user caseId stepId itemId b now =
        Except.ok
          { cases := cases.map (fun x => if x.id == caseId then
              updatedChecklistCase c stepId itemId b user.id now else x)
            caseItem := updatedChecklistCase c stepId itemId b user.id now
            notifications := []
            events := [] })
    ∧ (∀ (s i : Nat) (b : Bool) (u : Nat) (t : Int) (l : List ChecklistEntry),
      (upsertChecklist s i b u t l).find? (checklistKey s i) =
        some { stepId := s, itemId := i, isCompleted := b
               completedAt := if b then some t else none
               completedBy := if b then some u else none })
    ∧ (∀ (s i : Nat) (b : Bool) (u : Nat) (t : Int) (l : List ChecklistEntry),
      (l.filter (checklistKey s i)).length ≤ 1 →
      ((upsertChecklist s i b u t l).filter (checklistKey s i)).length = 1)
    ∧ (∀ (s i : Nat) (b : Bool) (u : Nat) (t : Int) (l : List ChecklistEntry),
      upsertChecklist s i b u t (upsertChecklist s i b u t l) =
        upsertChecklist s i b u t l)
    ∧ (∀ (c : Case) (stepId itemId : Nat) (b : Bool) (uid : Nat) (now : Int),
      (updatedChecklistCase c stepId itemId b uid now).lastActivityAt = now) :=
  ⟨fun cases user caseId stepId itemId b now c hfind hemp =>
      updateChecklistProgress_ok cases user caseId stepId itemId b now c hfind hemp,
   upsertChecklist_find, upsertChecklist_count, upsertChecklist_idem,
   fun _ _ _ _ _ _ => rfl⟩

/-- Witness for C7 at a concrete checklist update. -/
theorem C7_checklist_upsert_behaviour_witness :
    updateChecklistProgress [newCase] employeeUser 11 1 2 true 99 =
      Except.ok
        { cases := [newCase].map (fun x => if x.id == 11 then
            updatedChecklistCase newCase 1 2 true 5 99 else x)
          caseItem := updatedChecklistCase newCase 1 2 true 5 99
          notifications := []
          events := [] }
    ∧ (([] : List ChecklistEntry).filter (checklistKey 1 2)).length ≤ 1
    ∧ ((upsertChecklist 1 2 true 5 99 []).filter (checklistKey 1 2)).length = 1 :=
  ⟨C7_checklist_upsert_behaviour.1 [newCase] employeeUser 11 1 2 true 99 newCase
      (by decide) (by decide),
   by decide,
   C7_checklist_upsert_behaviour.2.2.1 1 2 true 5 99 [] (by decide)⟩

/-! ## Document version store (src/models/DocumentVersion.js,
src/controllers/documentVersionController.js) -/

/-- The status enumeration of the documentVersionSchema. -/
inductive DocStatus
  | active
  | superseded
  | deleted
deriving DecidableEq, Repr

/-- The verificationStatus enumeration of the documentVersionSchema. -/
inductive VerificationStatus
  | pending
  | verified
  | rejected
deriving DecidableEq, Repr

/-- A DocumentVersion row, restricted to the fields the core reads or
writes.  id models the Mongo _id. -/
structure DocumentVersion where
  id : Nat
  caseId : Nat
  documentType : String
  version : Nat
  fileUrl : String
  uploadedByUserId : Nat
  uploadedByRole : String
  status : DocStatus
  verificationStatus : VerificationStatus
  verifiedBy : Option Nat
  verifiedAt : Option Int
  rejectionReason : Option String
deriving DecidableEq, Repr

/-- Whether a row belongs to the (caseId, documentType) pair. -/
def docPair (caseId : Nat) (documentType : String) (r : DocumentVersion) : Bool :=
  r.caseId == caseId && r.documentType == documentType

/-- getLatestVersion (DocumentVersion.js lines 91-96): the highest version
number among all rows of the pair - findOne sorted by version descending -
and 0 when the pair has no rows. -/
def getLatestVersion (db : List DocumentVersion) (caseId : Nat)
    (documentType : String) : Nat :=
  ((db.filter (docPair caseId documentType)).map DocumentVersion.version).foldr max 0

/-- markPreviousAsSuperseded (DocumentVersion.js lines 99-111): updateMany
over rows of the same pair with a lower version number and active status,
setting status superseded. -/
def markPreviousAsSuperseded (db : List DocumentVersion) (d : DocumentVersion) :
    List DocumentVersion :=
  db.map (fun r =>
    if r.caseId == d.caseId && r.documentType == d.documentType
        && decide (r.version < d.version) && r.status == DocStatus.active then
      { r with status := DocStatus.superseded }
    else r)

/-- Request metadata of one upload: the new Mongo id and the file fields. -/
structure UploadMeta where
  id : Nat
  fileUrl : String
  uploaderId : Nat
  uploaderRole : String
deriving DecidableEq, Repr

/-- The successful mutation path of uploadVersion (controller lines 68-92):
create the new row with version latest+1 and schema defaults status active /
verification pending, then demote the previously active rows of the pair. -/
def uploadDocument (db : List DocumentVersion) (m : UploadMeta) (caseId : Nat)
    (documentType : String) : List DocumentVersion × DocumentVersion :=
  let v := getLatestVersion db caseId documentType + 1
  let row : DocumentVersion :=
    { id := m.id, caseId := caseId, documentType := documentType, version := v
      fileUrl := m.fileUrl, uploadedByUserId := m.uploaderId
      uploadedByRole := m.uploaderRole
      status := DocStatus.active, verificationStatus := VerificationStatus.pending
      verifiedBy := none, verifiedAt := none, rejectionReason := none }
  (markPreviousAsSuperseded (db ++ [row]) row, row)

/-- uploadVersion (controller lines 24-149): 404 when the case is absent;
403 unless the requester is the owning end user, the assigned employee or an
admin; 400 when the service defines required documents and the type is not
among them; 400 when no file accompanied the request; otherwise the mutation
path above plus one user-visible document_uploaded timeline event. -/
def uploadVersion (cases : List Case) (services : List Service)
    (db : List DocumentVersion) (user : User) (caseId : Nat)
    (documentType : String) (hasFile : Bool) (m : UploadMeta) :
    Except ApiError (List DocumentVersion × DocumentVersion × TimelineEvent) :=
  match findCase cases caseId with
  | none => Except.error (ApiError.notFound "Case not found")
  | some caseItem =>
    let isEndUser := user.role == "end_user" && caseItem.endUserId == user.id
    let isEmployee := user.role == "employee" && caseItem.employeeId == some user.id
    let isAdmin := user.role == "admin"
    if !(isEndUser || isEmployee || isAdmin) then
      Except.error (ApiError.forbidden "Not authorized to upload documents for this case")
    else
      match findService services caseItem.serviceId with
      | none => Except.error ApiError.serverError
      | some service =>
        if service.documentsRequired.length > 0
            && !(service.documentsRequired.contains documentType) then
          Except.error (ApiError.badRequest "Invalid document type")
        else if !hasFile then
          Except.error (ApiError.badRequest "Please upload a file")
        else
          let r := uploadDocument db m caseId documentType
          Except.ok (r.1, r.2,
            { caseId := caseId, eventType := EventType.document_uploaded
              title := "Document Uploaded", isVisibleToUser := true
              performedBy := { userId := some user.id, name := user.name
                               role := user.role } })

theorem le_foldr_max (x : Nat) (l : List Nat) (hx : x ∈ l) : x ≤ l.foldr max 0 := by
  induction l with
  | nil => cases hx
  | cons a as ih =>
    rcases List.mem_cons.mp hx with rfl | hx'
    · exact Nat.le_max_left _ _
    · exact Nat.le_trans (ih hx') (Nat.le_max_right _ _)

/-- Every row of the pair has a version number at most the latest. -/
theorem mem_version_le_latest (db : List DocumentVersion) (cid : Nat) (ty : String)
    (r : DocumentVersion) (hr : r ∈ db) (hp : docPair cid ty r = true) :
    r.version ≤ getLatestVersion db cid ty :=
  le_foldr_max _ _ (List.mem_map_of_mem _ (List.mem_filter.mpr ⟨hr, hp⟩))

theorem filter_map_comm {α : Type} (p : α → Bool) (f : α → α)
    (hf : ∀ x, p (f x) = p x) (l : List α) :
    (l.map f).filter p = (l.filter p).map f := by
  induction l with
  | nil => rfl
  | cons a as ih =>
    by_cases ha : p a
    · simp [List.filter_cons, ha, hf, ih]
    · simp [List.filter_cons, ha, hf, ih]

/-- After a single upload the new row is active with version latest+1, it is
in the resulting collection, and it is the only active row of its pair
there - whatever the prior state was. -/
theorem uploadDocument_unique_active (db : List DocumentVersion) (m : UploadMeta)
    (cid : Nat) (ty : String) :
    (uploadDocument db m cid ty).2.status = DocStatus.active
    ∧ (uploadDocument db m cid ty).2.version = getLatestVersion db cid ty + 1
    ∧ (uploadDocument db m cid ty).2 ∈ (uploadDocument db m cid ty).1
    ∧ ∀ x ∈ (uploadDocument db m cid ty).1, docPair cid ty x = true →
        x.status = DocStatus.active → x = (uploadDocument db m cid ty).2 := by
  refine ⟨rfl, rfl, ?_, ?_⟩
  · simp only [uploadDocument, markPreviousAsSuperseded]
    refine List.mem_map.mpr ⟨_, List.mem_append_right _ (List.mem_singleton.mpr rfl), ?_⟩
    simp
  · intro x hx hpair hact
    simp only [uploadDocument, markPreviousAsSuperseded, List.mem_map] at hx
    obtain ⟨y, hy, hxy⟩ := hx
    rcases List.mem_append.mp hy with hy' | hy'
    · by_cases hcond : (y.caseId == cid && y.documentType == ty
          && decide (y.version < getLatestVersion db cid ty + 1)
          && y.status == DocStatus.active) = true
      · rw [if_pos hcond] at hxy
        subst hxy
        simp at hact
      · rw [if_neg hcond] at hxy
        subst hxy
        exfalso
        apply hcond
        have hple := mem_version_le_latest db cid ty y hy' hpair
        simp only [docPair, Bool.and_eq_true, beq_iff_eq] at hpair
        simp [hpair.1, hpair.2, hact, Nat.lt_succ_of_le hple]
    · rw [List.mem_singleton.mp hy'] at hxy
      rw [if_neg (by simp)] at hxy
      exact hxy.symm

/-- n sequential uploads for one pair, the k-th carrying metadata args k. -/
def iterUpload (cid : Nat) (ty : String) (args : Nat → UploadMeta) :
    Nat → List DocumentVersion → List DocumentVersion
  | 0, db => db
  | n + 1, db => (uploadDocument (iterUpload cid ty args n db) (args n) cid ty).1

/-- The row the k-th upload of a chain creates (version v), at a given
lifecycle status. -/
def chainRow (cid : Nat) (ty : String) (m : UploadMeta) (v : Nat)
    (st : DocStatus) : DocumentVersion :=
  { id := m.id, caseId := cid, documentType := ty, version := v
    fileUrl := m.fileUrl, uploadedByUserId := m.uploaderId
    uploadedByRole := m.uploaderRole
    status := st, verificationStatus := VerificationStatus.pending
    verifiedBy := none, verifiedAt := none, rejectionReason := none }

/-- The expected pair rows after n sequential uploads into a fresh pair:
versions 1..n in order, the last active, all earlier ones superseded. -/
def expectedChain (cid : Nat) (ty : String) (args : Nat → UploadMeta) (n : Nat) :
    List DocumentVersion :=
  (List.range n).map (fun k =>
    chainRow cid ty (args k) (k + 1)
      (if k + 1 = n then DocStatus.active else DocStatus.superseded))

theorem foldr_max_range (n i : Nat) :
    ((List.range n).map (fun k => k + 1)).foldr max i = max i n := by
  induction n generalizing i with
  | zero => simp
  | succ n ih =>
    rw [List.range_succ, List.map_append, List.foldr_append]
    simp only [List.map_cons, List.map_nil, List.foldr_cons, List.foldr_nil]
    rw [ih]
    omega

theorem expectedChain_versions (cid : Nat) (ty : String) (args : Nat → UploadMeta)
    (n : Nat) :
    (expectedChain cid ty args n).map DocumentVersion.version =
      (List.range n).map (fun k => k + 1) := by
  simp [expectedChain, chainRow, List.map_map, Function.comp]

theorem getLatestVersion_of_chain (db : List DocumentVersion) (cid : Nat)
    (ty : String) (args : Nat → UploadMeta) (n : Nat)
    (hfil : db.filter (docPair cid ty) = expectedChain cid ty args n) :
    getLatestVersion db cid ty = n := by
  unfold getLatestVersion
  rw [hfil, expectedChain_versions, foldr_max_range]
  omega

theorem map_congr_range {α : Type} (n : Nat) (f g : Nat → α)
    (h : ∀ k, k < n → f k = g k) :
    (List.range n).map f = (List.range n).map g := by
  induction n with
  | zero => rfl
  | succ n ih =>
    rw [List.range_succ, List.map_append, List.map_append]
    rw [ih (fun k hk => h k (Nat.lt_succ_of_lt hk))]
    simp [h n (Nat.lt_succ_self n)]

theorem docPair_chainRow (cid : Nat) (ty : String) (m : UploadMeta) (v : Nat)
    (st : DocStatus) : docPair cid ty (chainRow cid ty m v st) = true := by
  simp [docPair, chainRow]

/-- After n sequential uploads into a pair the store previously held no rows
for, the pair rows are exactly versions 1..n in order, the n-th active and
all earlier ones superseded. -/
theorem iterUpload_chain (db : List DocumentVersion) (cid : Nat) (ty : String)
    (args : Nat → UploadMeta) (n : Nat)
    (hfresh : db.filter (docPair cid ty) = []) :
    (iterUpload cid ty args n db).filter (docPair cid ty) =
      expectedChain cid ty args n := by
  induction n with
  | zero => simpa [iterUpload, expectedChain] using hfresh
  | succ n ih =>
    have hlatest : getLatestVersion (iterUpload cid ty args n db) cid ty = n :=
      getLatestVersion_of_chain _ cid ty args n ih
    simp only [iterUpload, uploadDocument, hlatest, markPreviousAsSuperseded]
    rw [filter_map_comm _ _ (fun x => by split <;> simp [docPair])]
    rw [List.filter_append, ih]
    rw [show ({ id := (args n).id, caseId := cid, documentType := ty, version := n + 1,
                fileUrl := (args n).fileUrl, uploadedByUserId := (args n).uploaderId,
                uploadedByRole := (args n).uploaderRole,
                status := DocStatus.active, verificationStatus := VerificationStatus.pending,
                verifiedBy := none, verifiedAt := none,
                rejectionReason := none } : DocumentVersion)
      = chainRow cid ty (args n) (n + 1) DocStatus.active from rfl]
    have hfilrow : List.filter (docPair cid ty)
        [chainRow cid ty (args n) (n + 1) DocStatus.active]
        = [chainRow cid ty (args n) (n + 1) DocStatus.active] := by
      simp [List.filter_cons, docPair_chainRow]
    rw [hfilrow, List.map_append]
    have hmapchain :
        (expectedChain cid ty args n).map (fun r =>
          if r.caseId == cid && r.documentType == ty
              && decide (r.version < n + 1) && r.status == DocStatus.active then
            { r with status := DocStatus.superseded }
          else r) =
        (List.range n).map (fun k => chainRow cid ty (args k) (k + 1) DocStatus.superseded) := by
      rw [expectedChain, List.map_map]
      apply map_congr_range
      intro k hk
      by_cases hkn : k + 1 = n
      · simp [Function.comp, chainRow, hkn, show k + 1 < n + 1 from by omega]
      · simp [Function.comp, chainRow, hkn, show k + 1 < n + 1 from by omega]
    rw [hmapchain]
    simp only [List.map_cons, List.map_nil]
    rw [expectedChain, List.range_succ, List.map_append]
    congr 1
    · apply map_congr_range
      intro k hk
      have hne : ¬ (k + 1 = n + 1) := by omega
      simp [hne]
    · simp [chainRow]

/-- A successful uploadVersion call performs exactly the uploadDocument
mutation on the store. -/
theorem uploadVersion_ok_eq (cases : List Case) (services : List Service)
    (db : List DocumentVersion) (user : User) (caseId : Nat) (ty : String)
    (hasFile : Bool) (m : UploadMeta)
    (res : List DocumentVersion × DocumentVersion × TimelineEvent)
    (h : uploadVersion cases services db user caseId ty hasFile m = Except.ok res) :
    res.1 = (uploadDocument db m caseId ty).1
    ∧ res.2.1 = (uploadDocument db m caseId ty).2 := by
  unfold uploadVersion at h
  split at h
  · cases h
  · dsimp only at h
    split at h
    · cases h
    · split at h
      · cases h
      · split at h
        · cases h
        · split at h
          · cases h
          · cases h
            exact ⟨rfl, rfl⟩

/-- C2: for every (caseId, documentType) pair, at most one row is active at
any time: a successful upload is exactly the uploadDocument mutation, which
creates the new row with version latest+1 and status active and leaves it
the unique active row of its pair, and after N sequential uploads into a
fresh pair exactly the N-th row is active and all earlier rows are
superseded. -/
theorem C2_single_active_version :
    (∀ (cases : List Case) (services : List Service) (db : List DocumentVersion)
        (user : User) (caseId : Nat) (ty : String) (hasFile : Bool) (m : UploadMeta)
        (res : List DocumentVersion × DocumentVersion × TimelineEvent),
      uploadVersion cases services db user caseId ty hasFile m = Except.ok res →
        res.1 = (uploadDocument db m caseId ty).1
        ∧ res.2.1 = (uploadDocument db m caseId ty).2)
    ∧ (∀ (db : List DocumentVersion) (m : UploadMeta) (cid : Nat) (ty : String),
      (uploadDocument db m cid ty).2.status = DocStatus.active
      ∧ (uploadDocument db m cid ty).2.version = getLatestVersion db cid ty + 1
      ∧ (uploadDocument db m cid ty).2 ∈ (uploadDocument db m cid ty).1
      ∧ ∀ x ∈ (uploadDocument db m cid ty).1, docPair cid ty x = true →
          x.status = DocStatus.active → x = (uploadDocument db m cid ty).2)
    ∧ (∀ (db : List DocumentVersion) (cid : Nat) (ty : String)
        (args : Nat → UploadMeta) (n : Nat),
      db.filter (docPair cid ty) = [] →
      (iterUpload cid ty args n db).filter (docPair cid ty) =
        expectedChain cid ty args n) :=
  ⟨uploadVersion_ok_eq, uploadDocument_unique_active, iterUpload_chain⟩

/-- Upload metadata for the k-th sample upload. -/
def sampleMeta (k : Nat) : UploadMeta :=
  { id := 100 + k, fileUrl := "file", uploaderId := 9, uploaderRole := "end_user" }

/-- Witness for C2: two sequential uploads into an empty store leave version
2 active and version 1 superseded, and a single upload creates an active
row. -/
theorem C2_single_active_version_witness :
    (iterUpload 1 "idproof" sampleMeta 2 []).filter (docPair 1 "idproof") =
      expectedChain 1 "idproof" sampleMeta 2
    ∧ (uploadDocument [] (sampleMeta 0) 1 "idproof").2.status = DocStatus.active :=
  ⟨C2_single_active_version.2.2 [] 1 "idproof" sampleMeta 2 rfl,
   (C2_single_active_version.2.1 [] (sampleMeta 0) 1 "idproof").1⟩


/-! ## Verification, deletion and document status -/

/-- JS truthiness of an optional string (an empty string is falsy). -/
def strTruthy : Option String → Bool
  | some s => !(s == "")
  | none => false

/-- The admin-or-assigned-employee authorization of the document
controllers, with the JS short-circuit behaviour: an admin never touches the
case lookup; an employee dereferences the looked-up case and the handler
crashes (next(err)) when the case is missing; any other role is simply not
authorized. -/
def adminOrAssigned (cases : List Case) (user : User) (caseId : Nat) :
    Except ApiError Bool :=
  if user.role == "admin" then Except.ok true
  else if user.role == "employee" then
    match findCase cases caseId with
    | none => Except.error ApiError.serverError
    | some caseItem => Except.ok (caseItem.employeeId == some user.id)
  else Except.ok false

/-- The row verifyDocument writes: verificationStatus set to the requested
outcome, verifiedBy/verifiedAt stamped, rejectionReason overwritten only
when a truthy reason was supplied. -/
def verifiedRow (version : DocumentVersion) (vs : VerificationStatus)
    (reason : Option String) (uid : Nat) (now : Int) : DocumentVersion :=
  { version with
    verificationStatus := vs
    verifiedBy := some uid
    verifiedAt := some now
    rejectionReason := if strTruthy reason then reason else version.rejectionReason }

/-- verifyDocument (controller lines 403-470): 404 when the version is
absent; admin-or-assigned authorization; then write the verification fields
unconditionally - no rejection reason is ever demanded - and append one
user-visible document_verified / document_rejected event. -/
def verifyDocument (cases : List Case) (db : List DocumentVersion) (user : User)
    (versionId : Nat) (verificationStatus : VerificationStatus)
    (rejectionReason : Option String) (now : Int) :
    Except ApiError (List DocumentVersion × DocumentVersion × TimelineEvent) :=
  match db.find? (fun r => r.id == versionId) with
  | none => Except.error (ApiError.notFound "Document version not found")
  | some version =>
    match adminOrAssigned cases user version.caseId with
    | Except.error e => Except.error e
    | Except.ok auth =>
      if !auth then
        Except.error (ApiError.forbidden "Not authorized to verify this document")
      else
        let version2 := verifiedRow version verificationStatus rejectionReason user.id now
        Except.ok
          (db.map (fun r => if r.id == versionId then version2 else r),
           version2,
           { caseId := version.caseId
             eventType :=
               if verificationStatus == VerificationStatus.verified then
                 EventType.document_verified
               else EventType.document_rejected
             title :=
               if verificationStatus == VerificationStatus.verified then
                 "Document Verified"
               else "Document Rejected"
             isVisibleToUser := true
             performedBy := { userId := some user.id, name := user.name
                              role := user.role } })

/-- deleteVersion (controller lines 257-315): 404 when the version is
absent; admin-or-assigned authorization; then soft-delete exactly that row
(status deleted), renumbering and promoting nothing. -/
def deleteVersion (cases : List Case) (db : List DocumentVersion) (user : User)
    (versionId : Nat) : Except ApiError (List DocumentVersion) :=
  match db.find? (fun r => r.id == versionId) with
  | none => Except.error (ApiError.notFound "Document version not found")
  | some version =>
    match adminOrAssigned cases user version.caseId with
    | Except.error e => Except.error e
    | Except.ok auth =>
      if !auth then
        Except.error (ApiError.forbidden "Not authorized to delete this document")
      else
        Except.ok (db.map (fun r =>
          if r.id == versionId then { r with status := DocStatus.deleted } else r))

/-- One entry of the getDocumentStatus summary. -/
structure DocStatusEntry where
  documentName : String
  isUploaded : Bool
  latestVersion : Option DocumentVersion
deriving DecidableEq, Repr

/-- getDocumentStatus (DocumentVersion.js lines 114-156): collect the active
rows of the case sorted by version descending, map each required name to its
first active row in that order, and report isUploaded together with the
latest row. -/
def getDocumentStatus (db : List DocumentVersion) (caseId : Nat)
    (documentsRequired : List String) : List DocStatusEntry :=
  let uploadedDocuments :=
    @List.insertionSort DocumentVersion (fun a b => b.version ≤ a.version)
      (fun a b => Nat.decLe b.version a.version)
      (db.filter (fun r => r.caseId == caseId && r.status == DocStatus.active))
  documentsRequired.map (fun docName =>
    let uploadedDoc := uploadedDocuments.find? (fun r => r.documentType == docName)
    { documentName := docName
      isUploaded := uploadedDoc.isSome
      latestVersion := uploadedDoc })


/-- A case in progress owned by end user 9 and assigned to employee 5. -/
def docCase : Case :=
  { id := 1, endUserId := 9, serviceId := 3, employeeId := some 5
    status := CaseStatus.in_progress, currentStep := 0, completedAt := none
    checklistProgress := [], slaDeadline := none, slaStatus := SLAStatus.not_set
    reopenCount := 0, lastActivityAt := 0 }

/-- An administrator. -/
def adminUser : User := { id := 77, role := "admin", name := "Admin" }

/-- A pending active document version of docCase. -/
def pendingDoc : DocumentVersion :=
  { id := 200, caseId := 1, documentType := "idproof", version := 1, fileUrl := "f"
    uploadedByUserId := 9, uploadedByRole := "end_user", status := DocStatus.active
    verificationStatus := VerificationStatus.pending, verifiedBy := none
    verifiedAt := none, rejectionReason := none }

/-- Counterexample to C8: verifying with outcome rejected and no reason
succeeds and updates the verification fields, instead of being refused as a
validation error. -/
theorem C8_missing_reason_counterexample :
    (verifyDocument [docCase] [pendingDoc] adminUser 200
        VerificationStatus.rejected none 77).toOption.map
      (fun r => (r.2.1.verificationStatus, r.2.1.rejectionReason)) =
      some (VerificationStatus.rejected, none) := by decide

/-- C8 (amended): verifyDocument never requires a rejection reason: for any
found version and authorized actor the call succeeds for either outcome,
setting verificationStatus / verifiedBy / verifiedAt unconditionally and
storing a reason only when a non-empty one was supplied - a rejected outcome
with no reason is accepted and leaves rejectionReason as it was. -/
theorem C8_verify_reason_optional (cases : List Case) (db : List DocumentVersion)
    (user : User) (versionId : Nat) (vs : VerificationStatus)
    (reason : Option String) (now : Int) (version : DocumentVersion)
    (hfind : db.find? (fun r => r.id == versionId) = some version)
    (hauth : adminOrAssigned cases user version.caseId = Except.ok true) :
    verifyDocument cases db user versionId vs reason now =
      Except.ok
        (db.map (fun r => if r.id == versionId then
            verifiedRow version vs reason user.id now else r),
         verifiedRow version vs reason user.id now,
         { caseId := version.caseId
           eventType :=
             if vs == VerificationStatus.verified then EventType.document_verified
             else EventType.document_rejected
           title :=
             if vs == VerificationStatus.verified then "Document Verified"
             else "Document Rejected"
           isVisibleToUser := true
           performedBy := { userId := some user.id, name := user.name
                            role := user.role } })
    ∧ (verifiedRow version vs reason user.id now).verificationStatus = vs
    ∧ (verifiedRow version VerificationStatus.rejected none user.id now).rejectionReason
        = version.rejectionReason := by
  refine ⟨?_, rfl, rfl⟩
  simp [verifyDocument, hfind, hauth]

/-- Witness for C8: rejecting the pending version without a reason. -/
theorem C8_verify_reason_optional_witness :
    verifyDocument [docCase] [pendingDoc] adminUser 200
        VerificationStatus.rejected none 77 =
      Except.ok
        ([verifiedRow pendingDoc VerificationStatus.rejected none 77 77],
         verifiedRow pendingDoc VerificationStatus.rejected none 77 77,
         { caseId := 1, eventType := EventType.document_rejected
           title := "Document Rejected", isVisibleToUser := true
           performedBy := { userId := some 77, name := "Admin", role := "admin" } })
    ∧ (verifiedRow pendingDoc VerificationStatus.rejected none 77 77).verificationStatus
        = VerificationStatus.rejected := by
  have h := C8_verify_reason_optional [docCase] [pendingDoc] adminUser 200
    VerificationStatus.rejected none 77 pendingDoc (by decide) rfl
  exact ⟨by simpa [pendingDoc, adminUser] using h.1, h.2.1⟩

/-- C10: soft-deleting the unique active version of a (caseId, documentType)
pair promotes nothing - the store afterwards is the same rows with exactly
the deleted row demoted, zero active rows remain for the pair, and a
subsequent getDocumentStatus reports that document type with
isUploaded = false. -/
theorem C10_delete_active_no_promotion (cases : List Case)
    (db : List DocumentVersion) (user : User) (versionId : Nat)
    (version : DocumentVersion) (cid : Nat) (ty : String)
    (required : List String) (db2 : List DocumentVersion)
    (hfind : db.find? (fun r => r.id == versionId) = some version)
    (hcid : version.caseId = cid) (hty : version.documentType = ty)
    (honly : ∀ r ∈ db, r.caseId = cid → r.documentType = ty →
        r.status = DocStatus.active → r.id = versionId)
    (hok : deleteVersion cases db user versionId = Except.ok db2) :
    db2 = db.map (fun r =>
        if r.id == versionId then { r with status := DocStatus.deleted } else r)
    ∧ (∀ r ∈ db2, r.caseId = cid → r.documentType = ty →
        r.status ≠ DocStatus.active)
    ∧ (∀ entry ∈ getDocumentStatus db2 cid required,
        entry.documentName = ty → entry.isUploaded = false) := by
  have hdb2 : db2 = db.map (fun r =>
      if r.id == versionId then { r with status := DocStatus.deleted } else r) := by
    unfold deleteVersion at hok
    simp only [hfind] at hok
    split at hok
    · cases hok
    · split at hok
      · cases hok
      · cases hok
        rfl
  subst hdb2
  have hnoact : ∀ r ∈ db.map (fun r =>
      if r.id == versionId then { r with status := DocStatus.deleted } else r),
      r.caseId = cid → r.documentType = ty → r.status ≠ DocStatus.active := by
    intro r hr hrc hrt
    simp only [List.mem_map] at hr
    obtain ⟨y, hy, hxy⟩ := hr
    by_cases hid : (y.id == versionId) = true
    · rw [if_pos hid] at hxy
      subst hxy
      simp
    · rw [if_neg hid] at hxy
      subst hxy
      intro hact
      apply hid
      simp [honly y hy hrc hrt hact]
  refine ⟨rfl, hnoact, ?_⟩
  intro entry hent hname
  simp only [getDocumentStatus, List.mem_map] at hent
  obtain ⟨docName, hdn, hent⟩ := hent
  subst hent
  simp only at hname ⊢
  subst hname
  have hnone : ∀ (o : Option DocumentVersion), o = none → o.isSome = false := by
    intro o ho
    subst ho
    rfl
  apply hnone
  rw [List.find?_eq_none]
  intro x hx
  have hx2 := (List.perm_insertionSort _ _).mem_iff.mp hx
  obtain ⟨hxdb, hcond⟩ := List.mem_filter.mp hx2
  simp only [Bool.and_eq_true, beq_iff_eq] at hcond
  simp only [beq_iff_eq]
  intro hxty
  exact hnoact x hxdb hcond.1 hxty hcond.2

/-- Witness for C10: deleting the only active idproof version leaves the
pair with zero active rows and getDocumentStatus reports it missing. -/
theorem C10_delete_active_no_promotion_witness :
    deleteVersion [docCase] [pendingDoc] adminUser 200 =
      Except.ok [{ pendingDoc with status := DocStatus.deleted }]
    ∧ (getDocumentStatus [{ pendingDoc with status := DocStatus.deleted }] 1
        ["idproof"]).map (fun e => (e.documentName, e.isUploaded)) =
      [("idproof", false)] := by
  have h := C10_delete_active_no_promotion [docCase] [pendingDoc] adminUser 200
    pendingDoc 1 "idproof" ["idproof"] [{ pendingDoc with status := DocStatus.deleted }]
    (by decide) rfl rfl (by decide) rfl
  exact ⟨rfl, by decide⟩

/-! ## Workflow templates (src/models/WorkflowTemplate.js,
src/controllers/internalNoteController.js) -/

/-- A checklist item of a workflow step. -/
structure TemplateChecklistItem where
  title : String
  isOptional : Bool
  order : Nat
deriving DecidableEq, Repr

/-- A workflow step with its estimated duration in hours. -/
structure WorkflowStep where
  stepName : String
  order : Nat
  estimatedDuration : Int
  checklistItems : List TemplateChecklistItem
deriving DecidableEq, Repr

/-- A workflow template document. -/
structure WorkflowTemplate where
  id : Nat
  name : String
  serviceType : Nat
  steps : List WorkflowStep
  totalEstimatedDuration : Int
  isActive : Bool
deriving DecidableEq, Repr

/-- The pre-save hook (WorkflowTemplate.js lines 97-105): when the step list
is non-empty, recompute totalEstimatedDuration as the sum of the steps'
estimatedDuration values.  Mongoose runs this on save() - document creation
included - but findByIdAndUpdate bypasses it. -/
def preSaveRecompute (t : WorkflowTemplate) : WorkflowTemplate :=
  if t.steps.length > 0 then
    { t with totalEstimatedDuration :=
        t.steps.foldl (fun total step => total + step.estimatedDuration) 0 }
  else t

/-- createTemplate (internalNoteController.js lines 283-333): verify the
service exists, then WorkflowTemplate.create - which runs the pre-save
hook - starting from the schema default totalEstimatedDuration = 0. -/
def createTemplate (services : List Service) (templates : List WorkflowTemplate)
    (newId : Nat) (name : String) (serviceType : Nat) (steps : List WorkflowStep) :
    Except ApiError (List WorkflowTemplate × WorkflowTemplate) :=
  match findService services serviceType with
  | none => Except.error (ApiError.notFound "Service not found")
  | some _ =>
    let t := preSaveRecompute
      { id := newId, name := name, serviceType := serviceType, steps := steps
        totalEstimatedDuration := 0, isActive := true }
    Except.ok (templates ++ [t], t)

/-- The $set payload of a findByIdAndUpdate call on a template: only the
fields present in the request body are written. -/
structure TemplateUpdateBody where
  name : Option String
  steps : Option (List WorkflowStep)
  totalEstimatedDuration : Option Int
  isActive : Option Bool
deriving DecidableEq, Repr

/-- The field writes findByIdAndUpdate performs for a body. -/
def applyUpdateBody (t : WorkflowTemplate) (b : TemplateUpdateBody) :
    WorkflowTemplate :=
  { t with
    name := b.name.getD t.name
    steps := b.steps.getD t.steps
    totalEstimatedDuration := b.totalEstimatedDuration.getD t.totalEstimatedDuration
    isActive := b.isActive.getD t.isActive }

/-- updateTemplate (internalNoteController.js lines 398-446): 404 when the
template is absent, then findByIdAndUpdate with the request body - which
does not run the pre-save hook, so totalEstimatedDuration is not
recomputed. -/
def updateTemplate (templates : List WorkflowTemplate) (tid : Nat)
    (b : TemplateUpdateBody) :
    Except ApiError (List WorkflowTemplate × WorkflowTemplate) :=
  match templates.find? (fun t => t.id == tid) with
  | none => Except.error (ApiError.notFound "Workflow template not found")
  | some oldTemplate =>
    let t2 := applyUpdateBody oldTemplate b
    Except.ok (templates.map (fun t => if t.id == tid then t2 else t), t2)

/-- A stored template with one 5-hour step and a consistent total. -/
def smallTemplate : WorkflowTemplate :=
  { id := 50, name := "T", serviceType := 3
    steps := [{ stepName := "s1", order := 1, estimatedDuration := 5
                checklistItems := [] }]
    totalEstimatedDuration := 5, isActive := true }

/-- An edit replacing the steps with a 10h and a 20h step, carrying no
totalEstimatedDuration of its own. -/
def growBody : TemplateUpdateBody :=
  { name := none
    steps := some
      [{ stepName := "s1", order := 1, estimatedDuration := 10, checklistItems := [] },
       { stepName := "s2", order := 2, estimatedDuration := 20, checklistItems := [] }]
    totalEstimatedDuration := none
    isActive := none }

/-- Counterexample to C9: editing a template through updateTemplate replaces
its steps (now summing to 30 hours) but leaves the stored
totalEstimatedDuration at the stale value 5. -/
theorem C9_stale_total_counterexample :
    (updateTemplate [smallTemplate] 50 growBody).toOption.map
      (fun r => (r.2.totalEstimatedDuration,
        r.2.steps.foldl (fun total step => total + step.estimatedDuration) 0)) =
      some (5, 30) := by decide

/-- C9 (amended): the pre-save hook keeps totalEstimatedDuration equal to
the sum of the step durations on every save() - creation included - but
updateTemplate edits go through findByIdAndUpdate, which bypasses the hook:
after an edit whose body carries no total, the stored total is whatever it
was before, not the sum of the new steps. -/
theorem C9_total_recomputed_on_save_only :
    (∀ t : WorkflowTemplate, t.steps.length > 0 →
      (preSaveRecompute t).totalEstimatedDuration =
        t.steps.foldl (fun total step => total + step.estimatedDuration) 0)
    ∧ (∀ (services : List Service) (templates : List WorkflowTemplate)
        (newId : Nat) (nm : String) (st : Nat) (steps : List WorkflowStep)
        (svc : Service), findService services st = some svc →
      createTemplate services templates newId nm st steps =
        Except.ok (templates ++ [preSaveRecompute
          { id := newId, name := nm, serviceType := st, steps := steps
            totalEstimatedDuration := 0, isActive := true }],
          preSaveRecompute
          { id := newId, name := nm, serviceType := st, steps := steps
            totalEstimatedDuration := 0, isActive := true }))
    ∧ (∀ (templates : List WorkflowTemplate) (tid : Nat) (b : TemplateUpdateBody)
        (old : WorkflowTemplate),
      templates.find? (fun t => t.id == tid) = some old →
      b.totalEstimatedDuration = none →
      updateTemplate templates tid b =
        Except.ok (templates.map (fun t => if t.id == tid then
            applyUpdateBody old b else t), applyUpdateBody old b)
      ∧ (applyUpdateBody old b).totalEstimatedDuration =
          old.totalEstimatedDuration) := by
  refine ⟨?_, ?_, ?_⟩
  · intro t ht
    simp [preSaveRecompute, ht]
  · intro services templates newId nm st steps svc hfind
    simp [createTemplate, hfind]
  · intro templates tid b old hfind hb
    exact ⟨by simp [updateTemplate, hfind], by simp [applyUpdateBody, hb]⟩

/-- Witness for C9: the hook recomputes the small template to 5, and the
growing edit keeps the stale stored total. -/
theorem C9_total_recomputed_on_save_only_witness :
    (preSaveRecompute smallTemplate).totalEstimatedDuration =
      smallTemplate.steps.foldl (fun total step => total + step.estimatedDuration) 0
    ∧ (applyUpdateBody smallTemplate growBody).totalEstimatedDuration =
        smallTemplate.totalEstimatedDuration :=
  ⟨C9_total_recomputed_on_save_only.1 smallTemplate (by decide),
   (C9_total_recomputed_on_save_only.2.2 [smallTemplate] 50 growBody smallTemplate
      (by decide) rfl).2⟩

end LN
